import Mathlib

/-!
# Verification of the backoffice Resource Metadata & Query Resolution subsystem

A shallow embedding of the Go sources of the `backoffice` repository
(`core/resource.go`, `core/admin.go`, `core/field.go`, the core query file
defining `Query`/`SortField`/`ApplyDefaultSort`, and the ORDER-BY
construction of `adapters/sql/adapter.go`), together with theorems settling
the frozen claims about it.

Modelling conventions:
* Go structs become Lean structures; reflective struct metadata
  (`reflect.StructField`) is modelled by `StructField`, carrying the pieces
  the code reads: name, printed type, the `db`/`gorm`/`json` tags, the
  exportedness flag, and the shape information used by relationship
  detection (pointer-to-struct and numeric kind).
* Go maps used only through keyed lookup/insert (`FieldConfigs`) become
  association lists with first-match lookup.
* Function-typed values (`ComputeFunc`, `any`-typed defaults) are never
  invoked by the code under verification, only stored and compared against
  `nil`; they are modelled as abstract `Option Nat` handles.
* The third-party `strcase.ToSnake` fallback is an external library, not
  repository code; definitions that reach it are parameterised by an
  arbitrary `toSnake : String → String`.
* `DiscoverFields` mutates `r.Fields` incrementally and returns an error;
  the embedding returns the (possibly half-rebuilt) resource together
  with an optional error message, mirroring the Go in-place mutation.
-/

/-!
Character-list implementations of the Go `strings` helpers the code uses
(`Split`, `Contains`, `TrimSpace`, `HasSuffix`, `ToLower` — the names under
scrutiny are ASCII). They are written over `List Char` so that concrete
instances evaluate inside the kernel.
-/

/-- Whether the first list is a prefix of the second. -/
def isPrefixList : List Char → List Char → Bool
  | [], _ => true
  | _ :: _, [] => false
  | a :: as, b :: bs => a == b && isPrefixList as bs

/-- Splitting on a (non-empty) separator, fuelled by the input length. -/
def splitGo (sep : List Char) : Nat → List Char → List Char → List (List Char)
  | 0, s, acc => [acc.reverse ++ s]
  | _ + 1, [], acc => [acc.reverse]
  | fuel + 1, c :: rest, acc =>
    if isPrefixList sep (c :: rest) then
      acc.reverse :: splitGo sep fuel (rest.drop (sep.length - 1)) []
    else splitGo sep fuel rest (c :: acc)

/-- Go `strings.Split` for a non-empty separator. -/
def goSplit (s sub : String) : List String :=
  (splitGo sub.data (s.data.length + 1) s.data []).map String.mk

/-- Go `strings.TrimSpace`. -/
def goTrim (s : String) : String :=
  String.mk (((s.data.dropWhile Char.isWhitespace).reverse.dropWhile
    Char.isWhitespace).reverse)

/-- Go `strings.HasSuffix`. -/
def goHasSuffix (s sub : String) : Bool :=
  isPrefixList sub.data.reverse s.data.reverse

/-- Go `strings.ToLower` on ASCII names. -/
def lowerStr (s : String) : String :=
  String.mk (s.data.map Char.toLower)

/-- Substring test, mirroring Go `strings.Contains` for non-empty needles. -/
def containsSubstr (s sub : String) : Bool :=
  (goSplit s sub).length > 1

/-- Metadata of one struct field as seen through Go reflection. -/
structure StructField where
  name : String
  typeStr : String
  dbTag : String := ""
  gormTag : String := ""
  jsonTag : String := ""
  exported : Bool := true
  isPtrToStruct : Bool := false
  ptrElemName : String := ""
  isNumeric : Bool := false
deriving Repr, DecidableEq

/-- A model type is its ordered list of struct fields. -/
abbrev ModelType := List StructField

/-- Go `core.SortDirection` is a string type; these are its two constants. -/
def sortAsc : String := "asc"

def sortDesc : String := "desc"

/-- Go `core.SortPrecedence` enumeration values. -/
def sortPrecedenceNone : Nat := 0

def sortPrecedenceExplicit : Nat := 1

def sortPrecedenceAutoCreatedAt : Nat := 2

def sortPrecedenceAutoID : Nat := 3

/-- Go `core.SortField`. -/
structure SortField where
  field : String
  direction : String
  precedence : Nat := 0
deriving Repr, DecidableEq

/-- Go `core.RelationshipInfo`. -/
structure RelationshipInfo where
  relType : String
  relatedModel : String
  displayField : String
  foreignKey : String
  displayPattern : String
deriving Repr, DecidableEq

/-- Go `core.FieldInfo`; function values are abstract handles. -/
structure FieldInfo where
  name : String
  type : String
  jsonName : String
  displayName : String
  dbColumnName : String := ""
  required : Bool := false
  readOnly : Bool := false
  searchable : Bool := false
  unique : Bool := false
  primaryKey : Bool := false
  choices : List String := []
  defaultVal : Option Nat := none
  relationship : Option RelationshipInfo := none
  isComputed : Bool := false
  computeFunc : Option Nat := none
  sortFields : List SortField := []
  isSortable : Bool := false
  renderAs : String := ""
  maxPreviewLength : Nat := 0
deriving Repr, DecidableEq

/-- Go `core.FieldConfig`. -/
structure FieldConfig where
  displayName : String := ""
  dbColumnName : String := ""
  required : Bool := false
  readOnly : Bool := false
  searchable : Bool := false
  unique : Bool := false
  primaryKey : Bool := false
  choices : List String := []
  defaultVal : Option Nat := none
  relationship : Option RelationshipInfo := none
  isComputed : Bool := false
  computeFunc : Option Nat := none
  sortFields : List SortField := []
  isSortable : Bool := false
  renderAs : String := ""
  maxPreviewLength : Nat := 0
deriving Repr, DecidableEq

/-- Go `core.Resource`: the components read or written by the verified code
(display metadata, hidden/read-only flags and actions are untouched by it
and omitted). -/
structure Resource where
  name : String := ""
  modelType : ModelType
  fields : List FieldInfo := []
  primaryKey : String := ""
  idField : String := ""
  fieldConfigs : List (String × FieldConfig) := []
  fieldOrder : List String := []
  defaultSort : SortField := { field := "", direction := "", precedence := 0 }
deriving Repr, DecidableEq

/-- Go `core.Pagination`. -/
structure Pagination where
  limit : Int := 10
  offset : Int := 0
deriving Repr, DecidableEq

/-- Go `core.Query`; filter values are abstract (only keys are resolved). -/
structure Query where
  filters : List (String × Nat) := []
  sort : List SortField := []
  pagination : Pagination := {}
deriving Repr, DecidableEq

/-- `Query.WithSort`: appends a sort entry (zero `Precedence`). -/
def Query.withSortReq (q : Query) (field direction : String) : Query :=
  { q with sort := q.sort ++ [{ field := field, direction := direction, precedence := 0 }] }

/-- Go `reflect.Type.FieldByName` on a flat struct: first field with the name. -/
def fieldByName (mt : ModelType) (n : String) : Option StructField :=
  mt.find? (fun f => f.name == n)

/-- `core.isPrimaryKeyField`: a `db` tag of `id`/containing `primary`, or a
field named `ID` of type `uint`. -/
def isPrimaryKeyField (f : StructField) : Bool :=
  (f.dbTag != "" && (f.dbTag == "id" || containsSubstr f.dbTag "primary"))
    || (f.name == "ID" && f.typeStr == "uint")

/-- `core.getJSONTag`: the name portion of the json tag, defaulting to the field
name; `-` maps to the empty string. -/
def getJSONTag (f : StructField) : String :=
  if f.jsonTag == "" then f.name
  else if f.jsonTag == "-" then ""
  else (goSplit f.jsonTag ",").headD ""

/-- Pattern 2 of `core.detectRelationship`: the field is a pointer to a
struct and a sibling `<name>ID` field exists. -/
def detectRelationshipP2 (f : StructField) (mt : ModelType) : Option RelationshipInfo :=
  if f.isPtrToStruct then
    if (fieldByName mt (f.name ++ "ID")).isSome then
      some { relType := "many_to_one", relatedModel := f.ptrElemName,
             displayField := "Name", foreignKey := f.name ++ "ID",
             displayPattern := "compact" }
    else none
  else none

/-- `core.detectRelationship`: pattern 1 (numeric `<base>ID` field with a
pointer-to-struct sibling `<base>`) then pattern 2. -/
def detectRelationship (f : StructField) (mt : ModelType) : Option RelationshipInfo :=
  let p1 : Option RelationshipInfo :=
    if goHasSuffix f.name "ID" && f.isNumeric then
      match fieldByName mt (String.mk f.name.data.dropLast.dropLast) with
      | some rf =>
        if rf.isPtrToStruct then
          some { relType := "many_to_one", relatedModel := rf.ptrElemName,
                 displayField := "Name", foreignKey := f.name,
                 displayPattern := "compact" }
        else none
      | none => none
    else none
  match p1 with
  | some r => some r
  | none => detectRelationshipP2 f mt

/-- `core.FieldConfig.Apply`. -/
def applyConfig (fc : FieldConfig) (info : FieldInfo) : FieldInfo :=
  { info with
    displayName := if fc.displayName != "" then fc.displayName else info.displayName
    dbColumnName := if fc.dbColumnName != "" then fc.dbColumnName else info.dbColumnName
    required := fc.required
    readOnly := fc.readOnly
    searchable := fc.searchable
    unique := fc.unique
    primaryKey := fc.primaryKey
    choices := if fc.choices.length > 0 then fc.choices else info.choices
    defaultVal := if fc.defaultVal.isSome then fc.defaultVal else info.defaultVal
    relationship := if fc.relationship.isSome then fc.relationship else info.relationship
    isComputed := fc.isComputed
    computeFunc := fc.computeFunc
    sortFields := if fc.sortFields.length > 0 then fc.sortFields else info.sortFields
    isSortable := fc.isSortable
    renderAs := if fc.renderAs != "" then fc.renderAs else info.renderAs
    maxPreviewLength := if fc.maxPreviewLength > 0 then fc.maxPreviewLength
      else info.maxPreviewLength }

/-- The descriptor `DiscoverFields` emits for the detected primary key. -/
def pkFieldInfo (f : StructField) : FieldInfo :=
  { name := f.name, type := f.typeStr, jsonName := getJSONTag f,
    displayName := f.name, required := false, readOnly := true,
    searchable := false, unique := true, primaryKey := true,
    isComputed := false, computeFunc := none }

/-- The primary-key scan of `DiscoverFields`: first exported field passing
`isPrimaryKeyField`. -/
def findPKField (mt : ModelType) : Option StructField :=
  mt.find? (fun f => f.exported && isPrimaryKeyField f)

/-- First-match lookup in the `FieldConfigs` association list. -/
def lookupConfig (cfgs : List (String × FieldConfig)) (n : String) : Option FieldConfig :=
  (cfgs.find? (fun p => p.1 == n)).map Prod.snd

/-- Go map assignment `FieldConfigs[n] = fc`: replace the existing entry or
append a new one. -/
def insertConfig (cfgs : List (String × FieldConfig)) (n : String)
    (fc : FieldConfig) : List (String × FieldConfig) :=
  if cfgs.any (fun p => p.1 == n) then
    cfgs.map (fun p => if p.1 == n then (n, fc) else p)
  else cfgs ++ [(n, fc)]

/-- The descriptor `DiscoverFields` builds for one configured field: the
computed-field branch, or the struct-field branch (which fails when the
struct has no such field), each followed by `config.Apply`. -/
def mkConfiguredField (mt : ModelType) (n : String) (fc : FieldConfig) :
    Except String FieldInfo :=
  if fc.isComputed then
    .ok (applyConfig fc
      { name := n, type := "string", jsonName := n, displayName := n,
        required := false, readOnly := true, searchable := false,
        unique := false, primaryKey := false, isComputed := true,
        computeFunc := fc.computeFunc })
  else
    match fieldByName mt n with
    | none => .error ("configured field " ++ n ++ " not found in struct")
    | some sf =>
      .ok (applyConfig fc
        { name := sf.name, type := sf.typeStr, jsonName := getJSONTag sf,
          displayName := sf.name, required := false, readOnly := false,
          searchable := false, unique := false, primaryKey := false,
          isComputed := false, computeFunc := none,
          relationship := detectRelationship sf mt })

/-- The second loop of `DiscoverFields` over `FieldOrder`: skip names already
present in the accumulated fields, skip names without a config, stop at the
first error (the Go code returns there, leaving `r.Fields` half-built). -/
def discoverLoop (mt : ModelType) (cfgs : List (String × FieldConfig)) :
    List FieldInfo → List String → List FieldInfo × Option String
  | acc, [] => (acc, none)
  | acc, n :: rest =>
    if acc.any (fun fi => fi.name == n) then discoverLoop mt cfgs acc rest
    else
      match lookupConfig cfgs n with
      | none => discoverLoop mt cfgs acc rest
      | some fc =>
        match mkConfiguredField mt n fc with
        | .error e => (acc, some e)
        | .ok fi => discoverLoop mt cfgs (acc ++ [fi]) rest

/-- `core.Resource.DiscoverFields`: rebuild `Fields` from scratch (primary
key first, then the configured fields in registration order); `PrimaryKey`
and `IDField` are set only when a primary key is detected. -/
def discoverFields (r : Resource) : Resource × Option String :=
  match findPKField r.modelType with
  | some f =>
    ({ r with
        fields := (discoverLoop r.modelType r.fieldConfigs [pkFieldInfo f] r.fieldOrder).1,
        primaryKey := f.name, idField := f.name },
     (discoverLoop r.modelType r.fieldConfigs [pkFieldInfo f] r.fieldOrder).2)
  | none =>
    ({ r with
        fields := (discoverLoop r.modelType r.fieldConfigs [] r.fieldOrder).1 },
     (discoverLoop r.modelType r.fieldConfigs [] r.fieldOrder).2)

/-- `BackOffice.RegisterResource`: a fresh resource with empty configuration,
immediately field-discovered. -/
def registerResource (name : String) (mt : ModelType) : Resource :=
  (discoverFields { name := name, modelType := mt }).1

/-- `ResourceBuilder.WithField`: store the config, append to the registration
order, and re-run discovery; this variant also exposes the discovery error
(which the Go code ignores). -/
def withFieldChecked (r : Resource) (n : String) (fc : FieldConfig) :
    Resource × Option String :=
  discoverFields
    { r with fieldConfigs := insertConfig r.fieldConfigs n fc,
             fieldOrder := r.fieldOrder ++ [n] }

/-- `ResourceBuilder.WithField` as the Go builder behaves: the re-discovered
resource, the error dropped. -/
def withField (r : Resource) (n : String) (fc : FieldConfig) : Resource :=
  (withFieldChecked r n fc).1

/-- The field configuration assembled by `ResourceBuilder.WithDerivedField`
before the optional configuration functions run. -/
def derivedBaseConfig (displayName : String) (computeFn : Option Nat) : FieldConfig :=
  { displayName := displayName, readOnly := true, isComputed := true,
    computeFunc := computeFn }

/-- `ResourceBuilder.WithDerivedField` with the discovery error exposed. -/
def withDerivedFieldChecked (r : Resource) (n displayName : String)
    (computeFn : Option Nat) (cfgFns : List (FieldConfig → FieldConfig)) :
    Resource × Option String :=
  withFieldChecked r n (cfgFns.foldl (fun c g => g c) (derivedBaseConfig displayName computeFn))

/-- `ResourceBuilder.WithDerivedField`: a computed read-only config carrying
the compute handle, run through the optional configuration functions, then
registered like `WithField`. -/
def withDerivedField (r : Resource) (n displayName : String) (computeFn : Option Nat)
    (cfgFns : List (FieldConfig → FieldConfig)) : Resource :=
  (withDerivedFieldChecked r n displayName computeFn cfgFns).1

/-- `ResourceBuilder.WithDefaultSort`: records the sort with explicit
precedence. -/
def withDefaultSort (r : Resource) (field direction : String) : Resource :=
  { r with defaultSort :=
      { field := field, direction := direction, precedence := sortPrecedenceExplicit } }

/-- The creation-timestamp name test used by `hasCreatedAtField` and
`GetEffectiveDefaultSort`. -/
def isCreatedAtName (n : String) : Bool :=
  lowerStr n == "createdat" || lowerStr n == "created_at"

/-- `core.hasCreatedAtField`. -/
def hasCreatedAtField (r : Resource) : Bool :=
  r.fields.any (fun f => isCreatedAtName f.name)

/-- `core.Resource.GetEffectiveDefaultSort`: explicit default sort, else the
first `CreatedAt`-named field descending, else the ID field ascending. -/
def getEffectiveDefaultSort (r : Resource) : SortField :=
  if r.defaultSort.precedence == sortPrecedenceExplicit then r.defaultSort
  else
    match (if hasCreatedAtField r then
             r.fields.find? (fun f => isCreatedAtName f.name) else none) with
    | some f =>
      { field := f.name, direction := sortDesc,
        precedence := sortPrecedenceAutoCreatedAt }
    | none =>
      { field := r.idField, direction := sortAsc, precedence := sortPrecedenceAutoID }

/-- `core.Resource.GetFieldSortConfiguration`: the non-empty
`SortFields` list of the field, otherwise `nil`. -/
def getFieldSortConfiguration (r : Resource) (n : String) : Option (List SortField) :=
  match r.fields.find? (fun f => f.name == n) with
  | some f => if f.sortFields.length > 0 then some f.sortFields else none
  | none => none

/-- `core.Resource.IsFieldSortable`: custom sort configuration makes a field
sortable; computed fields without one are not; everything else (including
unknown names) is. -/
def isFieldSortable (r : Resource) (n : String) : Bool :=
  match r.fields.find? (fun f => f.name == n) with
  | some f =>
    if f.sortFields.length > 0 then true
    else if f.isComputed && !f.isSortable then false
    else true
  | none => true

/-- The `column:<name>` extraction from a gorm tag in `parseStructTags`. -/
def gormColumn (gormTag : String) : Option String :=
  if gormTag != "" && containsSubstr gormTag "column:" then
    match goSplit gormTag "column:" with
    | _ :: p1 :: _ =>
      let c1 := goTrim p1
      let c2 := (goSplit c1 ";").headD c1
      let c3 := (goSplit c2 ",").headD c2
      some (goTrim c3)
    | _ => none
  else none

/-- `core.Resource.parseStructTags`: db tag, then gorm `column:`, then the
name portion of the json tag; empty when the struct has no such field. -/
def parseStructTags (mt : ModelType) (n : String) : String :=
  match fieldByName mt n with
  | none => ""
  | some f =>
    if f.dbTag != "" && f.dbTag != "-" then f.dbTag
    else
      match gormColumn f.gormTag with
      | some c => c
      | none =>
        if f.jsonTag != "" && f.jsonTag != "-" then (goSplit f.jsonTag ",").headD ""
        else ""

/-- The first stage of `GetColumnName`: the explicit `DBColumnName` override
on the descriptor of the field, or the empty string when there is none (or no
such field). -/
def explicitColumn (r : Resource) (n : String) : String :=
  match r.fields.find? (fun f => f.name == n) with
  | some f => f.dbColumnName
  | none => ""

/-- `core.Resource.GetColumnName`, parameterised by the external
`strcase.ToSnake` fallback. -/
def getColumnName (toSnake : String → String) (r : Resource) (n : String) : String :=
  if explicitColumn r n != "" then explicitColumn r n
  else
    let c := parseStructTags r.modelType n
    if c != "" then c else toSnake n

/-- `core.Query.ApplyDefaultSort`: when the query has no sort, append the
effective default sort of the resource. -/
def applyDefaultSort (q : Query) (r : Resource) : Query :=
  if q.sort.length > 0 then q
  else
    let ds := getEffectiveDefaultSort r
    q.withSortReq ds.field ds.direction

/-- The ORDER-BY construction of `sql.Adapter.Find` (adapter.go 159–189),
as the list of `(column, direction)` pairs the Go code formats into
`"col DIR"` clauses: a field-level sort configuration expands to its columns
with the requested direction of the user, an unsortable field is skipped, and an
ordinary field resolves to a single column. -/
def buildOrderClauses (toSnake : String → String) (r : Resource)
    (sorts : List SortField) : List (String × String) :=
  sorts.foldl (fun acc sort =>
    let direction := if sort.direction == sortDesc then "DESC" else "ASC"
    match getFieldSortConfiguration r sort.field with
    | some fieldSort =>
      acc ++ fieldSort.map (fun fs =>
        let fsDirection := if direction == "DESC" then "DESC" else "ASC"
        (getColumnName toSnake r fs.field, fsDirection))
    | none =>
      if isFieldSortable r sort.field then
        acc ++ [(getColumnName toSnake r sort.field, direction)]
      else acc) []

/-- The sort pipeline of `sql.Adapter.Find`: apply the default sort, then
build the ORDER-BY pairs. -/
def findOrderClauses (toSnake : String → String) (r : Resource) (q : Query) :
    List (String × String) :=
  buildOrderClauses toSnake r (applyDefaultSort q r).sort

/-- The pagination signal computed at the end of `sql.Adapter.Find`:
`hasMore := (int64(query.Pagination.Offset) + currentResultCount) < totalCount`. -/
def computeHasMore (offset returnedCount totalCount : Int) : Bool :=
  decide (offset + returnedCount < totalCount)

/-! ## Concrete models

`itUserModel` mirrors the `IntegrationTestUser` struct of the derived-field
sort tests of the repository (`db` tags `id`, `first_name`, `last_name`,
`created_at`); `noPKModel` is a struct with a single plain exported string
field, hence no detectable primary key and no creation timestamp. -/

def itUserModel : ModelType :=
  [ { name := "ID", typeStr := "uint", dbTag := "id", jsonTag := "id",
      isNumeric := true },
    { name := "FirstName", typeStr := "string", dbTag := "first_name",
      jsonTag := "first_name" },
    { name := "LastName", typeStr := "string", dbTag := "last_name",
      jsonTag := "last_name" },
    { name := "CreatedAt", typeStr := "time.Time", dbTag := "created_at",
      jsonTag := "created_at" } ]

def noPKModel : ModelType := [ { name := "Name", typeStr := "string" } ]

/-- The literal mixed-direction sort plan of the spec:
`[(LastName, asc), (FirstName, asc), (CreatedAt, desc)]`. -/
def mixedSortPlan : List SortField :=
  [ { field := "LastName", direction := sortAsc },
    { field := "FirstName", direction := sortAsc },
    { field := "CreatedAt", direction := sortDesc } ]

/-- `IntegrationTestUser` with a derived `DisplayName` field carrying the
mixed-direction sort plan (three `SortBy` calls on the field builder). -/
def c1Resource : Resource :=
  withDerivedField (registerResource "IntegrationTestUser" itUserModel)
    "DisplayName" "Display Name" (some 1)
    [fun c => { c with sortFields := mixedSortPlan, isSortable := true }]

/-- A query requesting `DisplayName` descending. -/
def c1Query : Query := Query.withSortReq {} "DisplayName" sortDesc

/-- `IntegrationTestUser` with `CreatedAt` registered and a derived
`AccountAge` field with no sort configuration (unsortable). -/
def c2Resource : Resource :=
  withDerivedField
    (withField (registerResource "IntegrationTestUser" itUserModel) "CreatedAt" {})
    "AccountAge" "Account Age" (some 2) []

/-- A query whose only sort request names the unsortable derived field. -/
def c2Query : Query := Query.withSortReq {} "AccountAge" sortAsc

/-- A model exercising every stage of the column-resolution chain: a `db`
tag, `gorm` `column:` tags amid other options, a `json` tag with options,
and an untagged field. -/
def mixedTagModel : ModelType :=
  [ { name := "ID", typeStr := "uint", dbTag := "id",
      gormTag := "primaryKey;column:gorm_id", isNumeric := true },
    { name := "Name", typeStr := "string",
      gormTag := "size:255;column:user_name", jsonTag := "name_json" },
    { name := "Title", typeStr := "string",
      gormTag := "size:255;column:user_title" },
    { name := "Email", typeStr := "string", jsonTag := "email_addr,omitempty" },
    { name := "CreatedAt", typeStr := "time.Time" } ]

/-- `mixedTagModel` registered with an explicit column override on `Name`
(which also carries a storage tag). -/
def c5Resource : Resource :=
  withField (registerResource "MixedTag" mixedTagModel) "Name"
    { dbColumnName := "explicit_name" }

/-- Registration of a derived `Status` field with no compute function
(`ComputeFunc` handle absent) and no configuration functions, with the
discovery error exposed. -/
def c7Result : Resource × Option String :=
  withDerivedFieldChecked (registerResource "SortTestUser" itUserModel)
    "Status" "Status" none []

/-- A resource over `noPKModel`: no primary key, no `CreatedAt`, no explicit
default sort. -/
def c8Resource : Resource := registerResource "Plain" noPKModel

/-- A query with an empty sort list. -/
def c8Query : Query := {}

/-- C3: `computeHasMore(offset, returnedCount, totalCount)` equals
`offset + returnedCount < totalCount` for all integers, and in particular
with `totalCount = 12` it is true at `offset = 0, returnedCount = 10` and
false at `offset = 10, returnedCount = 2`. -/
theorem computeHasMore_spec :
    (∀ offset returnedCount totalCount : Int,
      computeHasMore offset returnedCount totalCount =
        decide (offset + returnedCount < totalCount)) ∧
    computeHasMore 0 10 12 = true ∧ computeHasMore 10 2 12 = false := by
  refine ⟨fun _ _ _ => rfl, by decide, by decide⟩

/-- C1 counterexample: for the sort plan
`[(LastName, asc), (FirstName, asc), (CreatedAt, desc)]` requested as `desc`,
the code expands to `[(last_name, DESC), (first_name, DESC),
(created_at, DESC)]` — not the `[(last_name, desc), (first_name, desc),
(created_at, asc)]` the claim requires (the `strcase.ToSnake` fallback is
irrelevant here: every plan column resolves through its `db` tag). -/
theorem sortPlanFlip_counterexample :
    findOrderClauses (fun s => s) c1Resource c1Query =
      [("last_name", "DESC"), ("first_name", "DESC"), ("created_at", "DESC")] ∧
    findOrderClauses (fun s => s) c1Resource c1Query ≠
      [("last_name", "DESC"), ("first_name", "DESC"), ("created_at", "ASC")] := by
  exact ⟨by decide, by decide⟩

/-- C1 (amended): for every field carrying a non-empty sortPlan and every
requested direction, sort expansion keeps the column list and order of the plan
but applies the requested direction uniformly to every expanded column,
ignoring the recorded direction of each plan entry. -/
theorem sortPlan_direction_spec (toSnake : String → String) (r : Resource)
    (f d : String) (p : Nat) (plan : List SortField)
    (h : getFieldSortConfiguration r f = some plan) :
    buildOrderClauses toSnake r [{ field := f, direction := d, precedence := p }] =
      plan.map (fun fs => (getColumnName toSnake r fs.field,
        if d == sortDesc then "DESC" else "ASC")) := by
  simp only [buildOrderClauses, List.foldl, h, List.nil_append]
  by_cases hd : d == sortDesc
  · simp [hd]
  · simp [hd]

/-- C1 witness: the amended rule applied to the concrete mixed plan. -/
theorem sortPlan_direction_spec_witness :
    getFieldSortConfiguration c1Resource "DisplayName" = some mixedSortPlan ∧
    buildOrderClauses (fun s => s) c1Resource
        [{ field := "DisplayName", direction := sortDesc, precedence := 0 }] =
      mixedSortPlan.map (fun fs => (getColumnName (fun s => s) c1Resource fs.field,
        if sortDesc == sortDesc then "DESC" else "ASC")) :=
  ⟨by decide, sortPlan_direction_spec (fun s => s) c1Resource "DisplayName" sortDesc 0
    mixedSortPlan (by decide)⟩

/-- C2 counterexample: with the unsortable derived field `AccountAge` as the
only sort request, the ORDER BY list of the plan is empty — it does not equal the
effective default sort `(CreatedAt, desc)` of the resource, whose expansion would
be `[(created_at, DESC)]`. -/
theorem unsortableFallback_counterexample :
    findOrderClauses (fun s => s) c2Resource c2Query = [] ∧
    getEffectiveDefaultSort c2Resource =
      { field := "CreatedAt", direction := sortDesc,
        precedence := sortPrecedenceAutoCreatedAt } ∧
    buildOrderClauses (fun s => s) c2Resource [getEffectiveDefaultSort c2Resource] =
      [("created_at", "DESC")] := by
  exact ⟨by decide, by decide, by decide⟩

/-- C2 (amended): a query whose only sort request names a computed field
with an empty sortPlan and `isSortable = false` never produces an error:
the entry contributes no ORDER BY term, and because `ApplyDefaultSort` runs
before expansion and sees a non-empty sort list, the effective default sort
is not reinstated — the resulting ORDER BY is empty (natural order). -/
theorem unsortable_sort_dropped (toSnake : String → String) (r : Resource)
    (q : Query) (f d : String) (p : Nat) (fi : FieldInfo)
    (hq : q.sort = [{ field := f, direction := d, precedence := p }])
    (hfind : r.fields.find? (fun x => x.name == f) = some fi)
    (hplan : fi.sortFields = []) (hcomp : fi.isComputed = true)
    (hsort : fi.isSortable = false) :
    findOrderClauses toSnake r q = [] := by
  simp only [findOrderClauses, applyDefaultSort, hq, List.length_cons,
    List.length_nil, Nat.zero_lt_succ, if_pos, buildOrderClauses, List.foldl,
    getFieldSortConfiguration, hfind, hplan, List.length_nil,
    isFieldSortable, hcomp, hsort]
  simp

/-- C2 witness: the amended statement applied to the concrete resource with
the unsortable derived `AccountAge` field. -/
theorem unsortable_sort_dropped_witness :
    c2Query.sort = [{ field := "AccountAge", direction := sortAsc, precedence := 0 }] ∧
    findOrderClauses (fun s => s) c2Resource c2Query = [] := by
  refine ⟨by decide, unsortable_sort_dropped (fun s => s) c2Resource c2Query
    "AccountAge" sortAsc 0
    { name := "AccountAge", type := "string", jsonName := "AccountAge",
      displayName := "Account Age", readOnly := true, isComputed := true,
      computeFunc := some 2 }
    (by decide) (by decide) rfl rfl rfl⟩

/-- C7 counterexample: registering a derived `Status` field with no compute
function raises no error — field discovery succeeds and yields a read-only
computed descriptor whose compute function is absent. -/
theorem computedWithoutFn_counterexample :
    c7Result.2 = none ∧
    (c7Result.1.fields.find? (fun f => f.name == "Status")).map
        (fun f => (f.isComputed, f.computeFunc, f.readOnly)) =
      some (true, none, true) := by
  exact ⟨by decide, by decide⟩

/-- C7 (amended): building the descriptor for a computed field never fails,
whether or not a compute function is supplied; the descriptor records the
configured compute handle unchanged (validation is absent — a missing
compute function is only guarded against later, at value-rendering time). -/
theorem computed_config_never_fails (mt : ModelType) (n : String)
    (fc : FieldConfig) (h : fc.isComputed = true) :
    ∃ fi, mkConfiguredField mt n fc = .ok fi ∧ fi.isComputed = true ∧
      fi.computeFunc = fc.computeFunc := by
  refine ⟨applyConfig fc
    { name := n, type := "string", jsonName := n, displayName := n,
      required := false, readOnly := true, searchable := false,
      unique := false, primaryKey := false, isComputed := true,
      computeFunc := fc.computeFunc }, ?_, ?_, ?_⟩
  · simp [mkConfiguredField, h]
  · simp [applyConfig, h]
  · simp [applyConfig]

/-- C7 witness: the amended statement at the concrete compute-function-free
configuration used by `c7Result`. -/
theorem computed_config_never_fails_witness :
    (derivedBaseConfig "Status" none).isComputed = true ∧
    ∃ fi, mkConfiguredField itUserModel "Status" (derivedBaseConfig "Status" none) =
        .ok fi ∧ fi.isComputed = true ∧
      fi.computeFunc = (derivedBaseConfig "Status" none).computeFunc :=
  ⟨rfl, computed_config_never_fails itUserModel "Status" (derivedBaseConfig "Status" none) rfl⟩

/-- C8: on a resource with no detectable primary key, no creation-timestamp
field and no explicit default sort, `ApplyDefaultSort` inserts a sort on the
empty field name (`IDField` is empty), and — because unknown names count as
sortable — the plan gains one ORDER BY term with an empty column name,
rather than no ORDER BY term. (`strcase.ToSnake` maps `""` to `""`, as the
snake-case test of the repository records.) -/
theorem noPK_emptyColumn_orderby (toSnake : String → String)
    (h : toSnake "" = "") :
    applyDefaultSort c8Query c8Resource =
      { filters := [],
        sort := [{ field := "", direction := sortAsc, precedence := 0 }],
        pagination := {} } ∧
    findOrderClauses toSnake c8Resource c8Query = [("", "ASC")] ∧
    findPKField noPKModel = none ∧
    hasCreatedAtField c8Resource = false ∧
    c8Resource.defaultSort.precedence ≠ sortPrecedenceExplicit := by
  refine ⟨by decide, ?_, by decide, by decide, by decide⟩
  have e : findOrderClauses toSnake c8Resource c8Query = [(toSnake "", "ASC")] := rfl
  rw [e, h]

/-- C8 witness: the theorem applied at a concrete snake-case function (the
identity, which agrees with `strcase.ToSnake` on `""`). -/
theorem noPK_emptyColumn_orderby_witness :
    (fun s => s) "" = "" ∧
    findOrderClauses (fun s => s) c8Resource c8Query = [("", "ASC")] :=
  ⟨rfl, (noPK_emptyColumn_orderby (fun s => s) rfl).2.1⟩

/-- The loop of `DiscoverFields` only ever appends to its accumulator. -/
theorem discoverLoop_prefix (mt : ModelType) (cfgs : List (String × FieldConfig)) :
    ∀ (l : List String) (acc : List FieldInfo),
      ∃ rest, (discoverLoop mt cfgs acc l).1 = acc ++ rest := by
  intro l
  induction l with
  | nil => exact fun acc => ⟨[], by simp [discoverLoop]⟩
  | cons n tl ih =>
    intro acc
    by_cases h1 : acc.any (fun fi => fi.name == n)
    · simpa [discoverLoop, h1] using ih acc
    · cases h2 : lookupConfig cfgs n with
      | none => simpa [discoverLoop, h1, h2] using ih acc
      | some fc =>
        cases h3 : mkConfiguredField mt n fc with
        | error e => exact ⟨[], by simp [discoverLoop, h1, h2, h3]⟩
        | ok fi =>
          obtain ⟨rest, hrest⟩ := ih (acc ++ [fi])
          exact ⟨[fi] ++ rest, by simp [discoverLoop, h1, h2, h3, hrest]⟩

/-- Splitting the loop of `DiscoverFields` over an appended order list. -/
theorem discoverLoop_append (mt : ModelType) (cfgs : List (String × FieldConfig)) :
    ∀ (l₁ l₂ : List String) (acc : List FieldInfo),
      discoverLoop mt cfgs acc (l₁ ++ l₂) =
        match discoverLoop mt cfgs acc l₁ with
        | (fs, none) => discoverLoop mt cfgs fs l₂
        | (fs, some e) => (fs, some e) := by
  intro l₁
  induction l₁ with
  | nil => intro l₂ acc; simp [discoverLoop]
  | cons n tl ih =>
    intro l₂ acc
    by_cases h1 : acc.any (fun fi => fi.name == n)
    · simp [discoverLoop, h1, ih]
    · cases h2 : lookupConfig cfgs n with
      | none => simp [discoverLoop, h1, h2, ih]
      | some fc =>
        cases h3 : mkConfiguredField mt n fc with
        | error e => simp [discoverLoop, h1, h2, h3]
        | ok fi => simp [discoverLoop, h1, h2, h3, ih]

/-- Replacing the key-`n` entries of an association list leaves `find?` at a
different key unchanged. -/
theorem find_keyReplace_ne (n m : String) (fc : FieldConfig) (h : m ≠ n) :
    ∀ l : List (String × FieldConfig),
      List.find? (fun p => p.1 == m) (l.map (fun p => if p.1 == n then (n, fc) else p)) =
        List.find? (fun p => p.1 == m) l := by
  have hnm : n ≠ m := fun e => h e.symm
  intro l
  induction l with
  | nil => rfl
  | cons p tl ih =>
    simp only [List.map_cons, List.find?_cons]
    by_cases hpn : p.1 = n
    · have hg : (if (p.1 == n) = true then (n, fc) else p) = (n, fc) := by
        simp [hpn]
      rw [hg]
      have h1 : ((n, fc).1 == m) = false := by simpa using hnm
      have h2 : (p.1 == m) = false := by simpa [hpn] using hnm
      rw [h1, h2]
      exact ih
    · have hg : (if (p.1 == n) = true then (n, fc) else p) = p := by
        simp [hpn]
      rw [hg]
      cases hpm : (p.1 == m) with
      | true => rfl
      | false => exact ih

/-- Replacing the key-`n` entries makes `find?` at `n` return the new entry,
provided one was present. -/
theorem find_keyReplace_self (n : String) (fc : FieldConfig) :
    ∀ l : List (String × FieldConfig), l.any (fun p => p.1 == n) = true →
      List.find? (fun p => p.1 == n) (l.map (fun p => if p.1 == n then (n, fc) else p)) =
        some (n, fc) := by
  intro l
  induction l with
  | nil => intro hx; simp at hx
  | cons p tl ih =>
    intro hx
    simp only [List.map_cons, List.find?_cons]
    by_cases hpn : p.1 = n
    · have hg : (if (p.1 == n) = true then (n, fc) else p) = (n, fc) := by
        simp [hpn]
      rw [hg]
      simp
    · have hg : (if (p.1 == n) = true then (n, fc) else p) = p := by
        simp [hpn]
      rw [hg]
      have htl : tl.any (fun p => p.1 == n) = true := by
        simpa [List.any_cons, hpn] using hx
      have h2 : (p.1 == n) = false := by simpa using hpn
      rw [h2]
      exact ih htl

/-- Keyed lookup is unchanged at other keys by a map-style insert. -/
theorem lookup_insert_ne (cfgs : List (String × FieldConfig)) (n m : String)
    (fc : FieldConfig) (h : m ≠ n) :
    lookupConfig (insertConfig cfgs n fc) m = lookupConfig cfgs m := by
  unfold insertConfig lookupConfig
  by_cases hx : cfgs.any (fun p => p.1 == n)
  · rw [if_pos hx, find_keyReplace_ne n m fc h]
  · rw [if_neg hx, List.find?_append]
    have hone : List.find? (fun p => p.1 == m) [(n, fc)] = none := by
      have : ((n, fc).1 == m) = false := by
        simpa using fun e : n = m => h e.symm
      simp [List.find?_cons, this]
    simp [hone]

/-- Keyed lookup after a map-style insert finds the inserted config. -/
theorem lookup_insert_self (cfgs : List (String × FieldConfig)) (n : String)
    (fc : FieldConfig) :
    lookupConfig (insertConfig cfgs n fc) n = some fc := by
  unfold insertConfig lookupConfig
  by_cases hx : cfgs.any (fun p => p.1 == n)
  · rw [if_pos hx, find_keyReplace_self n fc cfgs hx]
    rfl
  · rw [if_neg hx, List.find?_append]
    have hnone : List.find? (fun p => p.1 == n) cfgs = none := by
      rw [List.find?_eq_none]
      intro x hxl hpx
      exact hx (List.any_eq_true.mpr ⟨x, hxl, hpx⟩)
    simp [hnone, List.find?]

/-- Updating the configuration of a name that is already among the
accumulated descriptors does not change the discovery loop: every
occurrence of that name is skipped before its configuration is consulted. -/
theorem discoverLoop_insert_skipped (mt : ModelType)
    (cfgs : List (String × FieldConfig)) (n : String) (fc : FieldConfig) :
    ∀ (l : List String) (acc : List FieldInfo),
      acc.any (fun fi => fi.name == n) = true →
      discoverLoop mt (insertConfig cfgs n fc) acc l = discoverLoop mt cfgs acc l := by
  intro l
  induction l with
  | nil => intro acc _; rfl
  | cons m tl ih =>
    intro acc hacc
    by_cases hmn : m = n
    · have hskip : acc.any (fun fi => fi.name == m) = true := by
        rw [hmn]; exact hacc
      simp only [discoverLoop, hskip, if_pos]
      exact ih acc hacc
    · by_cases hskip : acc.any (fun fi => fi.name == m)
      · simp only [discoverLoop, hskip, if_pos]
        exact ih acc hacc
      · have hlk : lookupConfig (insertConfig cfgs n fc) m = lookupConfig cfgs m :=
          lookup_insert_ne cfgs n m fc hmn
        simp only [discoverLoop, hskip, if_neg, Bool.not_eq_true, hlk]
        cases hc : lookupConfig cfgs m with
        | none => exact ih acc hacc
        | some fcm =>
          dsimp only
          cases hmk : mkConfiguredField mt m fcm with
          | error e => rfl
          | ok fi =>
            have hacc2 : (acc ++ [fi]).any (fun x => x.name == n) = true := by
              simp [List.any_append, hacc]
            exact ih (acc ++ [fi]) hacc2

/-- Inserting a configuration for a name that does not occur in the order
list does not change the discovery loop. -/
theorem discoverLoop_insert_fresh (mt : ModelType)
    (cfgs : List (String × FieldConfig)) (n : String) (fc : FieldConfig) :
    ∀ (l : List String) (acc : List FieldInfo), n ∉ l →
      discoverLoop mt (insertConfig cfgs n fc) acc l = discoverLoop mt cfgs acc l := by
  intro l
  induction l with
  | nil => intro acc _; rfl
  | cons m tl ih =>
    intro acc hnl
    have hmn : m ≠ n := fun e => hnl (by rw [← e]; exact List.mem_cons_self m tl)
    have htl : n ∉ tl := fun e => hnl (List.mem_cons_of_mem m e)
    by_cases hskip : acc.any (fun fi => fi.name == m)
    · simp only [discoverLoop, hskip, if_pos]
      exact ih acc htl
    · have hlk : lookupConfig (insertConfig cfgs n fc) m = lookupConfig cfgs m :=
        lookup_insert_ne cfgs n m fc hmn
      simp only [discoverLoop, hskip, if_neg, Bool.not_eq_true, hlk]
      cases hc : lookupConfig cfgs m with
      | none => exact ih acc htl
      | some fcm =>
        dsimp only
        cases hmk : mkConfiguredField mt m fcm with
        | error e => rfl
        | ok fi => exact ih (acc ++ [fi]) htl

/-- Discovery is a stable operation: running it on its own output changes
nothing (it reads only the configuration components, which it never writes). -/
theorem discoverFields_stable (r : Resource) :
    discoverFields ((discoverFields r).1) = discoverFields r := by
  cases r with
  | mk name mt fields pk idf cfgs order ds =>
    cases h : findPKField mt with
    | some f => simp [discoverFields, h]
    | none => simp [discoverFields, h]

/-- Registering one genuinely new field via `WithField` reproduces every
previously discovered descriptor unchanged and appends the new descriptor at
the end; re-discovery raises no error. -/
theorem withFieldChecked_fresh_append (r : Resource) (n : String) (fc : FieldConfig)
    (fi : FieldInfo)
    (hstable : discoverFields r = (r, none))
    (horder : n ∉ r.fieldOrder)
    (hcfg : lookupConfig r.fieldConfigs n = none)
    (hfields : ∀ x ∈ r.fields, x.name ≠ n)
    (hmk : mkConfiguredField r.modelType n fc = .ok fi) :
    withFieldChecked r n fc =
      ({ r with fieldConfigs := insertConfig r.fieldConfigs n fc,
                fieldOrder := r.fieldOrder ++ [n],
                fields := r.fields ++ [fi] }, none) := by
  have hskip : r.fields.any (fun x => x.name == n) = false := by
    cases hx : r.fields.any (fun x => x.name == n) with
    | false => rfl
    | true =>
      obtain ⟨x, hxl, hpx⟩ := List.any_eq_true.mp hx
      exact absurd (by simpa using hpx) (hfields x hxl)
  obtain ⟨name, mt, fields, pk, idf, cfgs, order, ds⟩ := r
  dsimp only at horder hcfg hfields hmk hskip ⊢
  unfold withFieldChecked
  unfold discoverFields at hstable ⊢
  dsimp only at hstable ⊢
  cases hpk : findPKField mt with
  | some f =>
    rw [hpk] at hstable
    dsimp only at hstable ⊢
    rcases hE : discoverLoop mt cfgs [pkFieldInfo f] order with ⟨fs, err⟩
    rw [hE] at hstable
    have h1 : fs = fields := congrArg (fun p => p.1.fields) hstable
    have h2 : err = none := congrArg (fun p => p.2) hstable
    have h3 : f.name = pk := congrArg (fun p => p.1.primaryKey) hstable
    have h4 : f.name = idf := congrArg (fun p => p.1.idField) hstable
    subst h1; subst h2
    have hM : discoverLoop mt (insertConfig cfgs n fc) [pkFieldInfo f] (order ++ [n]) =
        (fs ++ [fi], none) := by
      rw [discoverLoop_append,
        discoverLoop_insert_fresh mt cfgs n fc order [pkFieldInfo f] horder, hE]
      dsimp only
      simp only [discoverLoop, hskip, lookup_insert_self, hmk]
      simp
    rw [hM]
    rw [← h3, ← h4]
  | none =>
    rw [hpk] at hstable
    dsimp only at hstable ⊢
    rcases hE : discoverLoop mt cfgs [] order with ⟨fs, err⟩
    rw [hE] at hstable
    have h1 : fs = fields := congrArg (fun p => p.1.fields) hstable
    have h2 : err = none := congrArg (fun p => p.2) hstable
    subst h1; subst h2
    have hM : discoverLoop mt (insertConfig cfgs n fc) [] (order ++ [n]) =
        (fs ++ [fi], none) := by
      rw [discoverLoop_append,
        discoverLoop_insert_fresh mt cfgs n fc order [] horder, hE]
      dsimp only
      simp only [discoverLoop, hskip, lookup_insert_self, hmk]
      simp
    rw [hM]

/-- Calling `WithField` with the name of the detected primary-key field leaves
every descriptor unchanged: the appended order entry is skipped because the
primary-key descriptor is already present, so the supplied configuration is
never applied. -/
theorem withFieldChecked_pkName_noop (r : Resource) (pf : StructField) (fc : FieldConfig)
    (hstable : discoverFields r = (r, none))
    (hpk : findPKField r.modelType = some pf) :
    withFieldChecked r pf.name fc =
      ({ r with fieldConfigs := insertConfig r.fieldConfigs pf.name fc,
                fieldOrder := r.fieldOrder ++ [pf.name] }, none) := by
  obtain ⟨name, mt, fields, pk, idf, cfgs, order, ds⟩ := r
  dsimp only at hpk ⊢
  unfold withFieldChecked
  unfold discoverFields at hstable ⊢
  rw [hpk] at hstable
  dsimp only at hstable ⊢
  cases hpk2 : findPKField mt with
  | none => rw [hpk] at hpk2; exact absurd hpk2 (by simp)
  | some f =>
    have hf : f = pf := by rw [hpk] at hpk2; exact (Option.some.injEq f pf ▸ hpk2.symm ▸ rfl)
    subst hf
    dsimp only
    rcases hE : discoverLoop mt cfgs [pkFieldInfo f] order with ⟨fs, err⟩
    rw [hE] at hstable
    have h1 : fs = fields := congrArg (fun p => p.1.fields) hstable
    have h2 : err = none := congrArg (fun p => p.2) hstable
    have h3 : f.name = pk := congrArg (fun p => p.1.primaryKey) hstable
    have h4 : f.name = idf := congrArg (fun p => p.1.idField) hstable
    subst h1; subst h2
    obtain ⟨rest, hrest⟩ := discoverLoop_prefix mt cfgs order [pkFieldInfo f]
    rw [hE] at hrest
    dsimp only at hrest
    have hacc : ([] ++ [pkFieldInfo f]).any (fun x => x.name == f.name) = true := by
      simp [pkFieldInfo]
    have hM : discoverLoop mt (insertConfig cfgs f.name fc) [pkFieldInfo f]
        (order ++ [f.name]) = (fs, none) := by
      rw [discoverLoop_insert_skipped mt cfgs f.name fc (order ++ [f.name])
          [pkFieldInfo f] (by simpa using hacc)]
      rw [discoverLoop_append, hE]
      dsimp only
      have hskip : fs.any (fun x => x.name == f.name) = true := by
        rw [hrest]
        simp [pkFieldInfo]
      simp [discoverLoop, hskip]
    rw [hM]
    rw [← h3, ← h4]

/-- C4: `GetEffectiveDefaultSort` returns the explicitly configured default
sort whenever one was set via `WithDefaultSort` (even when a
creation-timestamp field is present); otherwise the first field named
`CreatedAt`/`created_at` (case-insensitively) descending; otherwise the ID
field ascending. -/
theorem effectiveDefaultSort_precedence (r : Resource) :
    (∀ f d, getEffectiveDefaultSort (withDefaultSort r f d) =
      { field := f, direction := d, precedence := sortPrecedenceExplicit }) ∧
    (r.defaultSort.precedence ≠ sortPrecedenceExplicit →
      ∀ fi, r.fields.find? (fun x => isCreatedAtName x.name) = some fi →
        getEffectiveDefaultSort r =
          { field := fi.name, direction := sortDesc,
            precedence := sortPrecedenceAutoCreatedAt }) ∧
    (r.defaultSort.precedence ≠ sortPrecedenceExplicit →
      hasCreatedAtField r = false →
      getEffectiveDefaultSort r =
        { field := r.idField, direction := sortAsc,
          precedence := sortPrecedenceAutoID }) := by
  refine ⟨?_, ?_, ?_⟩
  · intro f d
    simp [getEffectiveDefaultSort, withDefaultSort]
  · intro hp fi hf
    have hcond : (r.defaultSort.precedence == sortPrecedenceExplicit) = false := by
      simpa using hp
    have hhas : hasCreatedAtField r = true := by
      have hmem := List.mem_of_find?_eq_some hf
      have hfa := List.find?_some hf
      unfold hasCreatedAtField
      exact List.any_eq_true.mpr ⟨fi, hmem, hfa⟩
    unfold getEffectiveDefaultSort
    rw [hcond, hhas]
    simp [hf]
  · intro hp hc
    have hcond : (r.defaultSort.precedence == sortPrecedenceExplicit) = false := by
      simpa using hp
    unfold getEffectiveDefaultSort
    rw [hcond, hc]
    simp

/-- C4 witness: the three tiers at concrete resources — an explicit override
on a resource that also has a `CreatedAt` field, the `CreatedAt` heuristic
on `c2Resource`, and the ID fallback on `c8Resource`. -/
theorem effectiveDefaultSort_precedence_witness :
    getEffectiveDefaultSort (withDefaultSort c2Resource "LastName" sortAsc) =
      { field := "LastName", direction := sortAsc,
        precedence := sortPrecedenceExplicit } ∧
    getEffectiveDefaultSort c2Resource =
      { field := "CreatedAt", direction := sortDesc,
        precedence := sortPrecedenceAutoCreatedAt } ∧
    getEffectiveDefaultSort c8Resource =
      { field := "", direction := sortAsc, precedence := sortPrecedenceAutoID } :=
  ⟨(effectiveDefaultSort_precedence c2Resource).1 "LastName" sortAsc,
   (effectiveDefaultSort_precedence c2Resource).2.1 (by decide)
     { name := "CreatedAt", type := "time.Time", jsonName := "created_at",
       displayName := "CreatedAt" } (by decide),
   (effectiveDefaultSort_precedence c8Resource).2.2 (by decide) (by decide)⟩

/-- C6: whenever the model has a detectable primary-key field, the
primary-key descriptor is the first element of the discovered field list,
for every configuration and registration order of the other fields. -/
theorem primaryKey_first (r : Resource)
    (h : ∃ f ∈ r.modelType, (f.exported && isPrimaryKeyField f) = true) :
    ∃ pf, findPKField r.modelType = some pf ∧
      (discoverFields r).1.fields.head? = some (pkFieldInfo pf) ∧
      (pkFieldInfo pf).primaryKey = true := by
  have hsome : (findPKField r.modelType).isSome := by
    unfold findPKField
    rw [List.find?_isSome]
    obtain ⟨f, hf, hp⟩ := h
    exact ⟨f, hf, hp⟩
  obtain ⟨pf, hpf⟩ := Option.isSome_iff_exists.mp hsome
  refine ⟨pf, hpf, ?_, rfl⟩
  unfold discoverFields
  rw [hpf]
  dsimp only
  obtain ⟨rest, hrest⟩ :=
    discoverLoop_prefix r.modelType r.fieldConfigs r.fieldOrder [pkFieldInfo pf]
  rw [hrest]
  simp

/-- C6 witness: the detectable primary key of `c1Resource` heads its field
list. -/
theorem primaryKey_first_witness :
    ∃ pf, findPKField c1Resource.modelType = some pf ∧
      (discoverFields c1Resource).1.fields.head? = some (pkFieldInfo pf) ∧
      (pkFieldInfo pf).primaryKey = true :=
  primaryKey_first c1Resource (by decide)

/-- C9: field discovery has no hidden accumulating state — re-running it on
its own output is the identity, and re-running it after registering exactly
one new field (a name with no prior order entry, configuration or
descriptor) reproduces every previously discovered descriptor unchanged and
appends the descriptor of the new field at the end. -/
theorem discovery_idempotent_append :
    (∀ r : Resource, discoverFields ((discoverFields r).1) = discoverFields r) ∧
    (∀ (r : Resource) (n : String) (fc : FieldConfig) (fi : FieldInfo),
      discoverFields r = (r, none) → n ∉ r.fieldOrder →
      lookupConfig r.fieldConfigs n = none → (∀ x ∈ r.fields, x.name ≠ n) →
      mkConfiguredField r.modelType n fc = .ok fi →
      withFieldChecked r n fc =
        ({ r with fieldConfigs := insertConfig r.fieldConfigs n fc,
                  fieldOrder := r.fieldOrder ++ [n],
                  fields := r.fields ++ [fi] }, none)) :=
  ⟨discoverFields_stable, withFieldChecked_fresh_append⟩

/-- C9 witness: registering the fresh field `FirstName` on the freshly
registered `IntegrationTestUser` resource appends exactly its descriptor. -/
theorem discovery_idempotent_append_witness :
    withFieldChecked (registerResource "IntegrationTestUser" itUserModel)
        "FirstName" {} =
      ({ registerResource "IntegrationTestUser" itUserModel with
          fieldConfigs :=
            insertConfig (registerResource "IntegrationTestUser" itUserModel).fieldConfigs
              "FirstName" {},
          fieldOrder :=
            (registerResource "IntegrationTestUser" itUserModel).fieldOrder ++ ["FirstName"],
          fields :=
            (registerResource "IntegrationTestUser" itUserModel).fields ++
              [{ name := "FirstName", type := "string", jsonName := "first_name",
                 displayName := "FirstName" }] }, none) :=
  discovery_idempotent_append.2 (registerResource "IntegrationTestUser" itUserModel)
    "FirstName" {} _ (by decide) (by decide) (by decide) (by decide) rfl

/-- C10: `WithField` on the name of the primary-key field never duplicates a
descriptor and never applies the supplied configuration: after rediscovery
the field list is unchanged, and its head is still the discovery-time
primary-key descriptor with its read-only, unique and primary-key flags and
names. -/
theorem withField_pkName_frame (r : Resource) (pf : StructField) (fc : FieldConfig)
    (hstable : discoverFields r = (r, none))
    (hpk : findPKField r.modelType = some pf) :
    (withField r pf.name fc).fields = r.fields ∧
    (withField r pf.name fc).fields.head? = some (pkFieldInfo pf) ∧
    (pkFieldInfo pf).readOnly = true ∧ (pkFieldInfo pf).unique = true ∧
    (pkFieldInfo pf).primaryKey = true ∧ (pkFieldInfo pf).name = pf.name := by
  have hnoop := withFieldChecked_pkName_noop r pf fc hstable hpk
  have hfields : (withField r pf.name fc).fields = r.fields := by
    unfold withField
    rw [hnoop]
  refine ⟨hfields, ?_, rfl, rfl, rfl, rfl⟩
  have h5 : (discoverFields r).1.fields = r.fields := by rw [hstable]
  unfold discoverFields at h5
  rw [hpk] at h5
  dsimp only at h5
  obtain ⟨rest, hrest⟩ :=
    discoverLoop_prefix r.modelType r.fieldConfigs r.fieldOrder [pkFieldInfo pf]
  rw [hrest] at h5
  rw [hfields, ← h5]
  simp

/-- C10 witness: configuring the detected primary key `ID` of
`IntegrationTestUser` with a display-name override changes no descriptor. -/
theorem withField_pkName_frame_witness :
    (withField (registerResource "IntegrationTestUser" itUserModel) "ID"
        { displayName := "Ident" }).fields =
      (registerResource "IntegrationTestUser" itUserModel).fields ∧
    (withField (registerResource "IntegrationTestUser" itUserModel) "ID"
        { displayName := "Ident" }).fields.head? =
      some (pkFieldInfo { name := "ID", typeStr := "uint", dbTag := "id",
                          jsonTag := "id", isNumeric := true }) :=
  ⟨(withField_pkName_frame (registerResource "IntegrationTestUser" itUserModel)
      { name := "ID", typeStr := "uint", dbTag := "id", jsonTag := "id",
        isNumeric := true }
      { displayName := "Ident" } (by decide) (by decide)).1,
   (withField_pkName_frame (registerResource "IntegrationTestUser" itUserModel)
      { name := "ID", typeStr := "uint", dbTag := "id", jsonTag := "id",
        isNumeric := true }
      { displayName := "Ident" } (by decide) (by decide)).2.1⟩

/-- C5: `GetColumnName` is total and first-match-wins: an explicit column
override on the field descriptor beats everything; otherwise the `db` tag of
the struct, then the `column:` sub-attribute of the `gorm` tag, then the
name portion of the `json` tag, then the snake-case transform of the raw name;
a name with no registered descriptor still goes through the tag and
snake-case steps. -/
theorem getColumnName_priority (toSnake : String → String) (r : Resource) (n : String) :
    (∀ fi, r.fields.find? (fun x => x.name == n) = some fi → fi.dbColumnName ≠ "" →
      getColumnName toSnake r n = fi.dbColumnName) ∧
    (explicitColumn r n = "" →
      (∀ sf, fieldByName r.modelType n = some sf →
        (sf.dbTag ≠ "" → sf.dbTag ≠ "-" →
          getColumnName toSnake r n = sf.dbTag) ∧
        ((sf.dbTag = "" ∨ sf.dbTag = "-") →
          ∀ c, gormColumn sf.gormTag = some c → c ≠ "" →
            getColumnName toSnake r n = c) ∧
        ((sf.dbTag = "" ∨ sf.dbTag = "-") → gormColumn sf.gormTag = none →
          sf.jsonTag ≠ "" → sf.jsonTag ≠ "-" →
          (goSplit sf.jsonTag ",").headD "" ≠ "" →
          getColumnName toSnake r n = (goSplit sf.jsonTag ",").headD "") ∧
        ((sf.dbTag = "" ∨ sf.dbTag = "-") → gormColumn sf.gormTag = none →
          (sf.jsonTag = "" ∨ sf.jsonTag = "-") →
          getColumnName toSnake r n = toSnake n)) ∧
      (fieldByName r.modelType n = none → getColumnName toSnake r n = toSnake n)) := by
  constructor
  · intro fi hfi hne
    have hcol : explicitColumn r n = fi.dbColumnName := by
      unfold explicitColumn
      rw [hfi]
    unfold getColumnName
    rw [hcol, if_pos (bne_iff_ne.mpr hne)]
  · intro hexp
    have hbase : getColumnName toSnake r n =
        (if parseStructTags r.modelType n != "" then parseStructTags r.modelType n
         else toSnake n) := by
      unfold getColumnName
      rw [hexp]
      simp
    constructor
    · intro sf hsf
      have hdbcase : ∀ h1 : (sf.dbTag = "" ∨ sf.dbTag = "-"),
          (sf.dbTag != "" && sf.dbTag != "-") = false := by
        intro h1
        cases h1 with
        | inl h => simp [h]
        | inr h => simp [h]
      refine ⟨?_, ?_, ?_, ?_⟩
      · intro h1 h2
        have hp : parseStructTags r.modelType n = sf.dbTag := by
          unfold parseStructTags
          rw [hsf]
          dsimp only
          rw [if_pos]
          simp [bne_iff_ne, h1, h2]
        rw [hbase, hp, if_pos (bne_iff_ne.mpr h1)]
      · intro h1 c hc hcne
        have hp : parseStructTags r.modelType n = c := by
          unfold parseStructTags
          rw [hsf]
          dsimp only
          rw [if_neg (by rw [hdbcase h1]; exact Bool.false_ne_true), hc]
        rw [hbase, hp, if_pos (bne_iff_ne.mpr hcne)]
      · intro h1 hg h2 h3 h4
        have hp : parseStructTags r.modelType n = (goSplit sf.jsonTag ",").headD "" := by
          unfold parseStructTags
          rw [hsf]
          dsimp only
          rw [if_neg (by rw [hdbcase h1]; exact Bool.false_ne_true), hg]
          dsimp only
          rw [if_pos]
          simp [bne_iff_ne, h2, h3]
        rw [hbase, hp, if_pos (bne_iff_ne.mpr h4)]
      · intro h1 hg h2
        have hjcase : (sf.jsonTag != "" && sf.jsonTag != "-") = false := by
          cases h2 with
          | inl h => simp [h]
          | inr h => simp [h]
        have hp : parseStructTags r.modelType n = "" := by
          unfold parseStructTags
          rw [hsf]
          dsimp only
          rw [if_neg (by rw [hdbcase h1]; exact Bool.false_ne_true), hg]
          dsimp only
          rw [if_neg (by rw [hjcase]; exact Bool.false_ne_true)]
        rw [hbase, hp]
        simp
    · intro hnone
      have hp : parseStructTags r.modelType n = "" := by
        unfold parseStructTags
        rw [hnone]
      rw [hbase, hp]
      simp

/-- C5 witness: every stage of the chain at concrete fields of
`c5Resource` — explicit override beating the `gorm` tag on `Name`, `db` tag
on `ID`, `gorm` tag on `Title`, `json` tag on `Email`, snake-case fallback
on the untagged `CreatedAt` and on the unknown name `Ghost`. -/
theorem getColumnName_priority_witness :
    getColumnName (fun _ => "snaked") c5Resource "Name" = "explicit_name" ∧
    getColumnName (fun _ => "snaked") c5Resource "ID" = "id" ∧
    getColumnName (fun _ => "snaked") c5Resource "Title" = "user_title" ∧
    getColumnName (fun _ => "snaked") c5Resource "Email" = "email_addr" ∧
    getColumnName (fun _ => "snaked") c5Resource "CreatedAt" = "snaked" ∧
    getColumnName (fun _ => "snaked") c5Resource "Ghost" = "snaked" :=
  ⟨(getColumnName_priority (fun _ => "snaked") c5Resource "Name").1
    { name := "Name", type := "string", jsonName := "name_json",
      displayName := "Name", dbColumnName := "explicit_name" }
    (by decide) (by decide),
   ((getColumnName_priority (fun _ => "snaked") c5Resource "ID").2 (by decide)).1
    { name := "ID", typeStr := "uint", dbTag := "id",
      gormTag := "primaryKey;column:gorm_id", isNumeric := true }
    (by decide) |>.1 (by decide) (by decide),
   ((getColumnName_priority (fun _ => "snaked") c5Resource "Title").2 (by decide)).1
    { name := "Title", typeStr := "string",
      gormTag := "size:255;column:user_title" }
    (by decide) |>.2.1 (by decide) "user_title" (by decide) (by decide),
   ((getColumnName_priority (fun _ => "snaked") c5Resource "Email").2 (by decide)).1
    { name := "Email", typeStr := "string", jsonTag := "email_addr,omitempty" }
    (by decide) |>.2.2.1 (by decide) (by decide) (by decide) (by decide) (by decide),
   ((getColumnName_priority (fun _ => "snaked") c5Resource "CreatedAt").2 (by decide)).1
    { name := "CreatedAt", typeStr := "time.Time" }
    (by decide) |>.2.2.2 (by decide) (by decide) (by decide),
   ((getColumnName_priority (fun _ => "snaked") c5Resource "Ghost").2 (by decide)).2
    (by decide)⟩
